import Mathlib

/-!
Verification of the pagination aggregator of `anaplan-api-js-wrapper`
(`src/helpers/paginationHandler.js`, the exported variant at lines 103-137).

The JavaScript source is:

```js
function paginationHandler({repository, apiCallName, params, pageSize = 1000, maxPages = -1}) {
    return new Promise(async (resolve, reject) => {
        let offset = 0;
        let data = [];
        let currentPage = 0;
        let totalSize = 0;
        let totalPages = 0;
        let currentSize = 0;

        do {
            const response = await repository[apiCallName]({ ...params, limit: pageSize, offset });
            if (currentPage === 0) {
                totalSize = response.meta.paging.totalSize;
                totalPages = Math.ceil(totalSize / pageSize);
            }
            currentSize = response.meta.paging.currentPageSize;
            const content = Object.values(response).filter((value) => Array.isArray(value))[0];
            data = data.concat(content);
            offset += currentSize;
            currentPage++;
        } while (currentSize > 0 && (maxPages === -1 || currentPage < maxPages));

        resolve(data);
    });
}
```

Shallow embedding notes (JavaScript semantics that the model must capture):

* `repository[apiCallName]` is the externally supplied fetch capability; we model it as
  a single function `apiCall : Req α → Except ε (Resp α)` (`await` of a rejecting
  promise is the `.error` case).
* A response object is an ordered list of string-keyed fields.  The field values the
  loop can observe are: an array of opaque items (`JVal.arrV`), an object that may
  contain a `paging` record (`JVal.pagingObj`, modelling the `meta` value), or any
  other non-array value (`JVal.prim`, e.g. the `status` block or a schema string).
* `response.meta.paging.totalSize` / `.currentPageSize`: if the `meta` field is
  absent, or is not an object carrying a `paging` record, the property chain hits
  `undefined` and the access throws a `TypeError` (`PHError.typeError`).
* `Object.values(response).filter(Array.isArray)[0]` keeps the values of the fields
  in key order, keeps only the arrays and takes the first; when no field is an array
  the `[0]` indexing yields `undefined`.
* `data.concat(content)` appends the elements of `content` when it is an array, and
  appends the single element `undefined` when `content` is `undefined`.  The
  accumulator is therefore a `List (Option α)` whose `none` entries are JavaScript
  `undefined` values (`jsConcatArg`).
* The executor passed to `new Promise` is an `async` function, and `reject` is never
  called.  An exception inside an async function does not propagate to the `Promise`
  constructor: it rejects the executor's own (ignored) promise.  Consequently any
  error raised in the loop - a rejected `apiCall` or a thrown `TypeError` - leaves
  the promise returned by `paginationHandler` forever pending.  `PromiseState`
  records the three possible fates of that promise; `rejected` is in the type (a
  promise can in principle reject) but the code never produces it.
* The loop itself can run forever (e.g. `maxPages = -1` with every envelope
  reporting a positive `currentPageSize`), so the loop is modelled with explicit
  fuel; `none` means the computation is still looping after `fuel` iterations.
* `totalSize` and `totalPages` are written on the first iteration and never read
  afterwards (dead stores); they are kept in the state for fidelity.
  `Math.ceil(totalSize / pageSize)` on integers is `jsCeilDiv`; for `pageSize = 0`
  JavaScript would store a non-finite number, modelled as `0` - the value is dead.
-/

/-- `meta.paging` record of a page envelope. -/
structure Paging where
  currentPageSize : Int
  offset : Int
  totalSize : Int
  deriving DecidableEq, Repr

/-- A top-level field value of a request or response object, as observable by the
pagination loop: an array of items, an object possibly carrying a `paging` record
(the shape of the `meta` value), a number (for the injected `limit`/`offset`), or
any other non-array value. -/
inductive JVal (α : Type) where
  | num : Int → JVal α
  | arrV : List α → JVal α
  | pagingObj : Option Paging → JVal α
  | prim : JVal α
  deriving DecidableEq, Repr

/-- A JavaScript object: ordered association list of string-keyed fields. -/
abbrev JObj (α : Type) : Type := List (String × JVal α)

/-- Property lookup `o[k]`: first field with key `k`, `none` is `undefined`. -/
def lookupField (o : JObj α) (k : String) : Option (JVal α) :=
  (o.find? (fun p => p.1 = k)).map Prod.snd

/-- `{...o, k: v}`: if `k` is already a key of `o` its value is overwritten in
place, otherwise the field is appended at the end. -/
def objSet (o : JObj α) (k : String) (v : JVal α) : JObj α :=
  if o.any (fun p => p.1 = k) then
    o.map (fun p => if p.1 = k then (k, v) else p)
  else
    o ++ [(k, v)]

/-- The argument object `{ ...params, limit: pageSize, offset }` built fresh on
every iteration of the loop. -/
def buildRequest (params : JObj α) (pageSize offset : Int) : JObj α :=
  objSet (objSet params "limit" (.num pageSize)) "offset" (.num offset)

/-- Evaluation of `response.meta.paging`: `none` when any step of the property
chain would make the subsequent field access throw a `TypeError` (missing `meta`,
`meta` not an object, or `meta` without a `paging` record). -/
def getPaging (resp : JObj α) : Option Paging :=
  match lookupField resp "meta" with
  | some (.pagingObj op) => op
  | _ => none

/-- `Array.isArray` value test, returning the array. -/
def arrOf : JVal α → Option (List α)
  | .arrV l => some l
  | _ => none

/-- `Object.values(response).filter((value) => Array.isArray(value))[0]`:
the first array-valued field of the envelope, `none` is `undefined`. -/
def getContent (resp : JObj α) : Option (List α) :=
  ((resp.map Prod.snd).filterMap arrOf).head?

/-- `data.concat(content)`: an array contributes its elements, `undefined`
contributes the single element `undefined` (modelled as `none`). -/
def jsConcatArg : Option (List α) → List (Option α)
  | some l => l.map some
  | none => [none]

/-- `Math.ceil(a / b)` on integer operands (used only for the dead variable
`totalPages`; `b = 0` would give a non-finite number in JavaScript, modelled
as `0` since the value is never read). -/
def jsCeilDiv (a b : Int) : Int :=
  if b = 0 then 0 else -((-a).fdiv b)

/-- Errors that can be thrown inside the async executor: a rejection of the
awaited `apiCall` promise, or the `TypeError` thrown by accessing a property of
`undefined` on the `response.meta.paging` chain. -/
inductive PHError (ε : Type) where
  | rejected : ε → PHError ε
  | typeError : PHError ε
  deriving DecidableEq, Repr

/-- The mutable locals of one aggregation call. -/
structure PHState (α : Type) where
  offset : Int
  data : List (Option α)
  currentPage : Nat
  totalSize : Int
  totalPages : Int
  currentSize : Int
  deriving DecidableEq, Repr

/-- `let offset = 0; let data = []; let currentPage = 0; let totalSize = 0;
let totalPages = 0; let currentSize = 0;` -/
def initState (α : Type) : PHState α :=
  { offset := 0, data := [], currentPage := 0, totalSize := 0, totalPages := 0,
    currentSize := 0 }

/-- The `if (currentPage === 0) { totalSize = ...; totalPages = ...; }` update. -/
def firstIterUpdate (st : PHState α) (paging : Paging) (pageSize : Int) : PHState α :=
  if st.currentPage = 0 then
    { st with totalSize := paging.totalSize,
              totalPages := jsCeilDiv paging.totalSize pageSize }
  else st

/-- The state after one loop body: `currentSize = ...; data = data.concat(content);
offset += currentSize; currentPage++;` applied on top of the first-iteration
`totalSize`/`totalPages` update. -/
def nextState (st : PHState α) (paging : Paging) (pageSize : Int)
    (content : Option (List α)) : PHState α :=
  let st₁ := firstIterUpdate st paging pageSize
  { st₁ with currentSize := paging.currentPageSize,
             data := st₁.data ++ jsConcatArg content,
             offset := st₁.offset + paging.currentPageSize,
             currentPage := st₁.currentPage + 1 }

/-- The do-while loop of `paginationHandler`, with explicit fuel.  Returns the
list of argument objects passed to `apiCall` (in call order) together with
`none` when the fuel ran out while the loop was still going, or `some` of the
loop's outcome: `.ok data` when the loop finished and `resolve(data)` runs,
`.error e` when an exception was thrown inside the async executor. -/
def phLoop (apiCall : JObj α → Except ε (JObj α)) (params : JObj α)
    (pageSize maxPages : Int) :
    Nat → PHState α → List (JObj α) × Option (Except (PHError ε) (List (Option α)))
  | 0, _ => ([], none)
  | fuel + 1, st =>
    let req := buildRequest params pageSize st.offset
    match apiCall req with
    | .error e => ([req], some (.error (.rejected e)))
    | .ok response =>
      match getPaging response with
      | none => ([req], some (.error .typeError))
      | some paging =>
        let st₂ := nextState st paging pageSize (getContent response)
        if paging.currentPageSize > 0 ∧
            (maxPages = -1 ∨ (st₂.currentPage : Int) < maxPages) then
          let rest := phLoop apiCall params pageSize maxPages fuel st₂
          (req :: rest.1, rest.2)
        else
          ([req], some (.ok st₂.data))

/-- One aggregation run from the initial state. -/
def phRun (apiCall : JObj α → Except ε (JObj α)) (params : JObj α)
    (pageSize maxPages : Int) (fuel : Nat) :
    List (JObj α) × Option (Except (PHError ε) (List (Option α))) :=
  phLoop apiCall params pageSize maxPages fuel (initState α)

/-- The argument objects passed to the fetch capability, in call order. -/
def phTrace (apiCall : JObj α → Except ε (JObj α)) (params : JObj α)
    (pageSize maxPages : Int) (fuel : Nat) : List (JObj α) :=
  (phRun apiCall params pageSize maxPages fuel).1

/-- Fate of the promise returned by `paginationHandler`. -/
inductive PromiseState (ε α : Type) where
  | pending : PromiseState ε α
  | resolved : α → PromiseState ε α
  | rejected : ε → PromiseState ε α
  deriving DecidableEq, Repr

/-- The promise returned by `paginationHandler` (`none`: still looping after
`fuel` iterations).  The executor is `new Promise(async (resolve, reject) => ...)`
and `reject` is never called, so when the loop body throws (rejected `apiCall`
or `TypeError`), the exception rejects the async executor's own ignored promise
and the returned promise stays pending forever. -/
def paginationHandler (apiCall : JObj α → Except ε (JObj α)) (params : JObj α)
    (pageSize maxPages : Int) (fuel : Nat) :
    Option (PromiseState (PHError ε) (List (Option α))) :=
  match (phRun apiCall params pageSize maxPages fuel).2 with
  | none => none
  | some (.ok data) => some (.resolved data)
  | some (.error _) => some .pending

/-- `currentPageSize` of an envelope (`0` when `meta.paging` is missing). -/
def respSize (resp : JObj α) : Int :=
  ((getPaging resp).map Paging.currentPageSize).getD 0

/-- Payload of an envelope (`[]` when no field is array-valued). -/
def respItems (resp : JObj α) : List α :=
  (getContent resp).getD []

/-- Sum of the reported `currentPageSize`s of a list of envelopes. -/
def sumSizes (rs : List (JObj α)) : Int :=
  (rs.map respSize).sum

-- Sanity check on the concrete scenario of the spec (C1):
-- four envelopes with sizes 2, 2, 1, 0 and payloads [1,2], [3,4], [5], [].
def scenarioResp (sz total : Int) (items : List Int) : JObj Int :=
  [("meta", .pagingObj (some ⟨sz, 0, total⟩)), ("items", .arrV items), ("status", .prim)]

def scenarioCall : JObj Int → Except String (JObj Int) := fun req =>
  match lookupField req "offset" with
  | some (.num 0) => .ok (scenarioResp 2 5 [1, 2])
  | some (.num 2) => .ok (scenarioResp 2 5 [3, 4])
  | some (.num 4) => .ok (scenarioResp 1 5 [5])
  | some (.num 5) => .ok (scenarioResp 0 5 [])
  | _ => .error "unexpected request"

example :
    paginationHandler scenarioCall [] 2 (-1) 4 =
      some (.resolved [some 1, some 2, some 3, some 4, some 5]) := by rfl

example : (phTrace scenarioCall [] 2 (-1) 4).length = 4 := by rfl

/-! ### Structural lemmas about field lookup and object update -/

theorem lookupField_nil (k : String) : lookupField ([] : JObj α) k = none := rfl

theorem lookupField_cons (p : String × JVal α) (rest : JObj α) (k : String) :
    lookupField (p :: rest) k = if p.1 = k then some p.2 else lookupField rest k := by
  by_cases h : p.1 = k <;> simp [lookupField, List.find?_cons, h]

theorem objSet_cons_ne (p : String × JVal α) (rest : JObj α) (k : String) (v : JVal α)
    (h : p.1 ≠ k) : objSet (p :: rest) k v = p :: objSet rest k v := by
  by_cases hr : rest.any (fun q => q.1 = k) = true
  · simp [objSet, List.any_cons, h, hr]
  · simp [objSet, List.any_cons, h, hr]

theorem lookupField_map_set_ne (rest : JObj α) (k k' : String) (v : JVal α) (h : k' ≠ k) :
    lookupField (rest.map (fun p => if p.1 = k then (k, v) else p)) k' =
      lookupField rest k' := by
  induction rest with
  | nil => rfl
  | cons p ps ih =>
    by_cases hp : p.1 = k
    · have h1 : ¬(k = k') := fun hk => h hk.symm
      have h2 : ¬(p.1 = k') := by rw [hp]; exact h1
      simp [List.map_cons, hp, lookupField_cons, h1, h2, ih]
    · simp only [List.map_cons, if_neg hp, lookupField_cons, ih]

theorem lookupField_objSet (o : JObj α) (k k' : String) (v : JVal α) :
    lookupField (objSet o k v) k' = if k' = k then some v else lookupField o k' := by
  induction o with
  | nil =>
    by_cases h : k' = k
    · simp [objSet, lookupField_cons, h]
    · simp [objSet, lookupField_cons, lookupField_nil, h, Ne.symm h]
  | cons p rest ih =>
    by_cases hp : p.1 = k
    · have hany : ((p :: rest).any fun q => q.1 = k) = true := by simp [List.any_cons, hp]
      have hobj : objSet (p :: rest) k v =
          (k, v) :: rest.map (fun q => if q.1 = k then (k, v) else q) := by
        simp [objSet, hany, hp]
      rw [hobj, lookupField_cons]
      by_cases h : k' = k
      · simp [h]
      · have h2 : ¬(k = k') := fun hk => h hk.symm
        rw [if_neg h2, lookupField_map_set_ne rest k k' v h, if_neg h, lookupField_cons,
          if_neg (by rw [hp]; exact h2)]
    · rw [objSet_cons_ne p rest k v hp, lookupField_cons, ih, lookupField_cons]
      by_cases h : k' = k
      · simp [h, hp]
      · simp [h]

/-- Lookup semantics of the argument object `{ ...params, limit: pageSize, offset }`:
the injected `limit` and `offset` values override identically named caller keys,
and every other key reads through to `params`. -/
theorem lookupField_buildRequest (params : JObj α) (pageSize offset : Int) (k : String) :
    lookupField (buildRequest params pageSize offset) k =
      if k = "limit" then some (.num pageSize)
      else if k = "offset" then some (.num offset)
      else lookupField params k := by
  unfold buildRequest
  rw [lookupField_objSet, lookupField_objSet]
  by_cases ho : k = "offset"
  · subst ho; simp
  · by_cases hl : k = "limit"
    · subst hl; simp
    · simp [ho, hl]

/-! ### Structural lemmas about the loop state -/

@[simp] theorem firstIterUpdate_offset (st : PHState α) (p : Paging) (ps : Int) :
    (firstIterUpdate st p ps).offset = st.offset := by
  unfold firstIterUpdate; split <;> rfl

@[simp] theorem firstIterUpdate_data (st : PHState α) (p : Paging) (ps : Int) :
    (firstIterUpdate st p ps).data = st.data := by
  unfold firstIterUpdate; split <;> rfl

@[simp] theorem firstIterUpdate_currentPage (st : PHState α) (p : Paging) (ps : Int) :
    (firstIterUpdate st p ps).currentPage = st.currentPage := by
  unfold firstIterUpdate; split <;> rfl

theorem sumSizes_nil : sumSizes ([] : List (JObj α)) = 0 := rfl

theorem sumSizes_cons (r : JObj α) (rs : List (JObj α)) :
    sumSizes (r :: rs) = respSize r + sumSizes rs := by
  simp [sumSizes]

@[simp] theorem nextState_offset (st : PHState α) (p : Paging) (ps : Int)
    (ct : Option (List α)) : (nextState st p ps ct).offset = st.offset + p.currentPageSize := by
  simp [nextState]

@[simp] theorem nextState_data (st : PHState α) (p : Paging) (ps : Int)
    (ct : Option (List α)) : (nextState st p ps ct).data = st.data ++ jsConcatArg ct := by
  simp [nextState]

@[simp] theorem nextState_currentPage (st : PHState α) (p : Paging) (ps : Int)
    (ct : Option (List α)) : (nextState st p ps ct).currentPage = st.currentPage + 1 := by
  simp [nextState]

@[simp] theorem nextState_currentSize (st : PHState α) (p : Paging) (ps : Int)
    (ct : Option (List α)) : (nextState st p ps ct).currentSize = p.currentPageSize := by
  simp [nextState]

/-! ### One-step unfolding of the loop -/

theorem phLoop_zero (apiCall : JObj α → Except ε (JObj α)) (params : JObj α)
    (pageSize maxPages : Int) (st : PHState α) :
    phLoop apiCall params pageSize maxPages 0 st = ([], none) := rfl

theorem phLoop_succ_err (apiCall : JObj α → Except ε (JObj α)) (params : JObj α)
    (pageSize maxPages : Int) (fuel : Nat) (st : PHState α) (e : ε)
    (hA : apiCall (buildRequest params pageSize st.offset) = .error e) :
    phLoop apiCall params pageSize maxPages (fuel + 1) st =
      ([buildRequest params pageSize st.offset], some (.error (.rejected e))) := by
  simp only [phLoop, hA]

theorem phLoop_succ_noPaging (apiCall : JObj α → Except ε (JObj α)) (params : JObj α)
    (pageSize maxPages : Int) (fuel : Nat) (st : PHState α) (resp : JObj α)
    (hA : apiCall (buildRequest params pageSize st.offset) = .ok resp)
    (hP : getPaging resp = none) :
    phLoop apiCall params pageSize maxPages (fuel + 1) st =
      ([buildRequest params pageSize st.offset], some (.error .typeError)) := by
  simp only [phLoop, hA, hP]

theorem phLoop_succ_cont (apiCall : JObj α → Except ε (JObj α)) (params : JObj α)
    (pageSize maxPages : Int) (fuel : Nat) (st : PHState α) (resp : JObj α) (pg : Paging)
    (hA : apiCall (buildRequest params pageSize st.offset) = .ok resp)
    (hP : getPaging resp = some pg)
    (hc : pg.currentPageSize > 0 ∧
      (maxPages = -1 ∨ ((st.currentPage + 1 : Nat) : Int) < maxPages)) :
    phLoop apiCall params pageSize maxPages (fuel + 1) st =
      (buildRequest params pageSize st.offset ::
        (phLoop apiCall params pageSize maxPages fuel
          (nextState st pg pageSize (getContent resp))).1,
       (phLoop apiCall params pageSize maxPages fuel
          (nextState st pg pageSize (getContent resp))).2) := by
  have hc' : pg.currentPageSize > 0 ∧ (maxPages = -1 ∨
      ((nextState st pg pageSize (getContent resp)).currentPage : Int) < maxPages) := by
    rw [nextState_currentPage]; exact hc
  simp only [phLoop, hA, hP]
  rw [if_pos hc']

theorem phLoop_succ_stop (apiCall : JObj α → Except ε (JObj α)) (params : JObj α)
    (pageSize maxPages : Int) (fuel : Nat) (st : PHState α) (resp : JObj α) (pg : Paging)
    (hA : apiCall (buildRequest params pageSize st.offset) = .ok resp)
    (hP : getPaging resp = some pg)
    (hc : ¬(pg.currentPageSize > 0 ∧
      (maxPages = -1 ∨ ((st.currentPage + 1 : Nat) : Int) < maxPages))) :
    phLoop apiCall params pageSize maxPages (fuel + 1) st =
      ([buildRequest params pageSize st.offset],
       some (.ok (st.data ++ jsConcatArg (getContent resp)))) := by
  have hc' : ¬(pg.currentPageSize > 0 ∧ (maxPages = -1 ∨
      ((nextState st pg pageSize (getContent resp)).currentPage : Int) < maxPages)) := by
    rw [nextState_currentPage]; exact hc
  simp only [phLoop, hA, hP]
  rw [if_neg hc', nextState_data]

/-! ### The loop over a list of served pages

`phLoop_serves` characterises a complete aggregation: when the fetch capability
answers the request at each expected offset with the corresponding envelope of
`resps`, every envelope carries `meta.paging` and an array-valued field, every
envelope but the last reports a positive `currentPageSize` and the last a
non-positive one, then (with `maxPages = -1`) the loop fetches exactly the
`resps.length` pages at the prefix-sum offsets and resolves with the
concatenation of the payloads, in order. -/

theorem phLoop_serves (apiCall : JObj α → Except ε (JObj α)) (params : JObj α)
    (pageSize : Int) :
    ∀ (resps : List (JObj α)) (fuel : Nat) (st : PHState α),
      resps ≠ [] →
      resps.length ≤ fuel →
      (∀ i, i < resps.length →
        apiCall (buildRequest params pageSize (st.offset + sumSizes (resps.take i))) =
          .ok (resps.getD i [])) →
      (∀ r ∈ resps, (getPaging r).isSome) →
      (∀ r ∈ resps, (getContent r).isSome) →
      (∀ i, i + 1 < resps.length → 0 < respSize (resps.getD i [])) →
      respSize (resps.getD (resps.length - 1) []) ≤ 0 →
      phLoop apiCall params pageSize (-1) fuel st =
        ((List.range resps.length).map
            (fun i => buildRequest params pageSize (st.offset + sumSizes (resps.take i))),
         some (.ok (st.data ++ ((resps.map respItems).flatten.map some)))) := by
  intro resps
  induction resps with
  | nil => intro fuel st hne; exact absurd rfl hne
  | cons r rs ih =>
    intro fuel st hne hfl hserve hpag hcon hpos hlast
    cases fuel with
    | zero => simp at hfl
    | succ n =>
      have hA0 : apiCall (buildRequest params pageSize st.offset) = .ok r := by
        have h0 := hserve 0 (by simp)
        simpa [sumSizes_nil] using h0
      obtain ⟨pg, hpg⟩ := Option.isSome_iff_exists.mp (hpag r (List.mem_cons_self r rs))
      obtain ⟨its, hits⟩ := Option.isSome_iff_exists.mp (hcon r (List.mem_cons_self r rs))
      have hsize : respSize r = pg.currentPageSize := by simp [respSize, hpg]
      have hitems : respItems r = its := by simp [respItems, hits]
      cases rs with
      | nil =>
        have hlast' : pg.currentPageSize ≤ 0 := by
          rw [← hsize]; simpa using hlast
        have hstop : ¬(pg.currentPageSize > 0 ∧
            ((-1 : Int) = -1 ∨ ((st.currentPage + 1 : Nat) : Int) < -1)) := by
          rintro ⟨h1, -⟩; omega
        rw [phLoop_succ_stop apiCall params pageSize (-1) n st r pg hA0 hpg hstop]
        simp [List.range_succ, sumSizes_nil, hits, hitems, jsConcatArg]
      | cons r' rs' =>
        have hpos0 : 0 < pg.currentPageSize := by
          rw [← hsize]
          simpa using hpos 0 (by simp)
        have hcont : pg.currentPageSize > 0 ∧
            ((-1 : Int) = -1 ∨ ((st.currentPage + 1 : Nat) : Int) < -1) :=
          ⟨hpos0, Or.inl rfl⟩
        rw [phLoop_succ_cont apiCall params pageSize (-1) n st r pg hA0 hpg hcont]
        have hih := ih n (nextState st pg pageSize (getContent r))
          (List.cons_ne_nil r' rs')
          (by simp at hfl ⊢; omega)
          (by
            intro i hi
            have h' := hserve (i + 1) (by simp at hi ⊢; omega)
            rw [List.take_succ_cons, sumSizes_cons, hsize] at h'
            rw [nextState_offset]
            simpa [List.getD_cons_succ, add_assoc] using h')
          (fun x hx => hpag x (List.mem_cons_of_mem r hx))
          (fun x hx => hcon x (List.mem_cons_of_mem r hx))
          (by
            intro i hi
            have h' := hpos (i + 1) (by simp at hi ⊢; omega)
            simpa [List.getD_cons_succ] using h')
          (by simpa [List.getD_cons_succ] using hlast)
        rw [hih, Prod.mk.injEq]
        refine ⟨?_, ?_⟩
        · -- the issued requests line up: first request plus the shifted tail
          simp only [List.length_cons]
          conv_rhs => rw [List.range_succ_eq_map]
          rw [List.map_cons, List.map_map]
          congr 1
          · simp [sumSizes_nil]
          · apply List.map_congr_left
            intro i _
            simp only [Function.comp_apply, List.take_succ_cons, sumSizes_cons,
              nextState_offset, hsize, add_assoc]
        · -- the accumulated payloads line up
          rw [nextState_data, hits]
          simp [jsConcatArg, hitems, List.map_append, List.append_assoc]

/-! ### Observational equivalence of runs

The loop reads nothing of a response except the `meta.paging.currentPageSize`
view (including whether `meta.paging` is present at all), the extracted payload,
and - on the first iteration only, into dead variables - `totalSize`.  Two fetch
capabilities whose answers agree on those observations drive the loop through
identical traces and outcomes. -/

/-- States that agree on every field the loop's output can depend on
(`totalSize`/`totalPages` are written but never read). -/
def StRel (s1 s2 : PHState α) : Prop :=
  s1.offset = s2.offset ∧ s1.data = s2.data ∧ s1.currentPage = s2.currentPage ∧
    s1.currentSize = s2.currentSize

/-- Envelopes the loop cannot tell apart: the same `currentPageSize` view of
`meta.paging` (in particular the same presence or absence) and the same
extracted payload; `totalSize` is free to differ. -/
def ObsRelR (r1 r2 : JObj α) : Prop :=
  (getPaging r1).map Paging.currentPageSize = (getPaging r2).map Paging.currentPageSize ∧
    getContent r1 = getContent r2

/-- Pointwise relation on fetch results: identical failures, or successes whose
envelopes are observationally equal. -/
def ExRelObs (x y : Except ε (JObj α)) : Prop :=
  match x, y with
  | .error e1, .error e2 => e1 = e2
  | .ok r1, .ok r2 => ObsRelR r1 r2
  | _, _ => False

theorem phLoop_obs (a1 a2 : JObj α → Except ε (JObj α)) (params : JObj α)
    (pageSize maxPages : Int) (h : ∀ req, ExRelObs (a1 req) (a2 req)) :
    ∀ (fuel : Nat) (s1 s2 : PHState α), StRel s1 s2 →
      phLoop a1 params pageSize maxPages fuel s1 =
        phLoop a2 params pageSize maxPages fuel s2 := by
  intro fuel
  induction fuel with
  | zero => intro s1 s2 _; rw [phLoop_zero, phLoop_zero]
  | succ n ih =>
    intro s1 s2 hs
    obtain ⟨ho, hd, hp, hcs⟩ := hs
    have hreq : buildRequest params pageSize s2.offset =
        buildRequest params pageSize s1.offset := by rw [ho]
    have hx := h (buildRequest params pageSize s1.offset)
    cases hA1 : a1 (buildRequest params pageSize s1.offset) with
    | error e1 =>
      rw [hA1] at hx
      cases hA2 : a2 (buildRequest params pageSize s1.offset) with
      | error e2 =>
        have he : e1 = e2 := by rw [hA2] at hx; exact hx
        rw [phLoop_succ_err a1 params pageSize maxPages n s1 e1 hA1,
          phLoop_succ_err a2 params pageSize maxPages n s2 e2 (by rw [hreq]; exact hA2),
          ho, he]
      | ok r2 => rw [hA2] at hx; exact absurd hx (by simp [ExRelObs])
    | ok r1 =>
      rw [hA1] at hx
      cases hA2 : a2 (buildRequest params pageSize s1.offset) with
      | error e2 => rw [hA2] at hx; exact absurd hx (by simp [ExRelObs])
      | ok r2 =>
        rw [hA2] at hx
        obtain ⟨hpm, hct⟩ : ObsRelR r1 r2 := hx
        have hA2' : a2 (buildRequest params pageSize s2.offset) = .ok r2 := by
          rw [hreq]; exact hA2
        cases hP1 : getPaging r1 with
        | none =>
          have hP2 : getPaging r2 = none := by
            rw [hP1] at hpm
            exact Option.map_eq_none'.mp hpm.symm
          rw [phLoop_succ_noPaging a1 params pageSize maxPages n s1 r1 hA1 hP1,
            phLoop_succ_noPaging a2 params pageSize maxPages n s2 r2 hA2' hP2, ho]
        | some p1 =>
          cases hP2 : getPaging r2 with
          | none => rw [hP1, hP2] at hpm; exact absurd hpm (by simp)
          | some p2 =>
            have hcps : p1.currentPageSize = p2.currentPageSize := by
              rw [hP1, hP2] at hpm
              simpa using hpm
            by_cases hcond : p1.currentPageSize > 0 ∧
                ((maxPages : Int) = -1 ∨ ((s1.currentPage + 1 : Nat) : Int) < maxPages)
            · have hcond2 : p2.currentPageSize > 0 ∧
                  ((maxPages : Int) = -1 ∨ ((s2.currentPage + 1 : Nat) : Int) < maxPages) := by
                rw [← hcps, ← hp]; exact hcond
              rw [phLoop_succ_cont a1 params pageSize maxPages n s1 r1 p1 hA1 hP1 hcond,
                phLoop_succ_cont a2 params pageSize maxPages n s2 r2 p2 hA2' hP2 hcond2, ho]
              have hnext : StRel (nextState s1 p1 pageSize (getContent r1))
                  (nextState s2 p2 pageSize (getContent r2)) := by
                refine ⟨?_, ?_, ?_, ?_⟩ <;>
                  simp [nextState_offset, nextState_data, nextState_currentPage,
                    nextState_currentSize, ho, hd, hp, hcps, hct]
              rw [ih _ _ hnext]
            · have hcond2 : ¬(p2.currentPageSize > 0 ∧
                  ((maxPages : Int) = -1 ∨ ((s2.currentPage + 1 : Nat) : Int) < maxPages)) := by
                rw [← hcps, ← hp]; exact hcond
              rw [phLoop_succ_stop a1 params pageSize maxPages n s1 r1 p1 hA1 hP1 hcond,
                phLoop_succ_stop a2 params pageSize maxPages n s2 r2 p2 hA2' hP2 hcond2,
                ho, hd, hct]

/-- Field values identical except possibly for the `totalSize` component of a
`paging` record. -/
inductive TotalVRel : JVal α → JVal α → Prop where
  | num (n : Int) : TotalVRel (.num n) (.num n)
  | arrV (l : List α) : TotalVRel (.arrV l) (.arrV l)
  | prim : TotalVRel .prim .prim
  | pagingNone : TotalVRel (.pagingObj none) (.pagingObj none)
  | pagingSome (p1 p2 : Paging) (hc : p1.currentPageSize = p2.currentPageSize)
      (ho : p1.offset = p2.offset) :
      TotalVRel (.pagingObj (some p1)) (.pagingObj (some p2))

/-- Envelopes identical except for every `meta.paging.totalSize` field: same
keys in the same order, and each pair of values `TotalVRel`-related. -/
def TotalRel (r1 r2 : JObj α) : Prop :=
  List.Forall₂ (fun a b => a.1 = b.1 ∧ TotalVRel a.2 b.2) r1 r2

theorem totalRel_lookup {r1 r2 : JObj α} (h : TotalRel r1 r2) (k : String) :
    Option.Rel TotalVRel (lookupField r1 k) (lookupField r2 k) := by
  induction h with
  | nil => exact Option.Rel.none
  | @cons a b l1 l2 hab htail ih =>
    obtain ⟨hk, hv⟩ := hab
    rw [lookupField_cons, lookupField_cons, hk]
    by_cases hbk : b.1 = k
    · rw [if_pos hbk, if_pos hbk]
      exact Option.Rel.some hv
    · rw [if_neg hbk, if_neg hbk]
      exact ih

theorem totalVRel_arrOf {v1 v2 : JVal α} (h : TotalVRel v1 v2) : arrOf v1 = arrOf v2 := by
  cases h <;> rfl

theorem totalRel_getPaging {r1 r2 : JObj α} (h : TotalRel r1 r2) :
    (getPaging r1).map Paging.currentPageSize =
      (getPaging r2).map Paging.currentPageSize := by
  have hl := totalRel_lookup h "meta"
  unfold getPaging
  revert hl
  generalize lookupField r1 "meta" = o1
  generalize lookupField r2 "meta" = o2
  intro hl
  cases hl with
  | none => rfl
  | some hv => cases hv <;> simp [*]

theorem totalRel_getContent {r1 r2 : JObj α} (h : TotalRel r1 r2) :
    getContent r1 = getContent r2 := by
  unfold getContent
  have : List.filterMap arrOf (r1.map Prod.snd) = List.filterMap arrOf (r2.map Prod.snd) := by
    induction h with
    | nil => rfl
    | @cons a b l1 l2 hab htail ih =>
      rw [List.map_cons, List.map_cons, List.filterMap_cons, List.filterMap_cons,
        totalVRel_arrOf hab.2, ih]
  rw [this]

theorem totalRel_obs {r1 r2 : JObj α} (h : TotalRel r1 r2) : ObsRelR r1 r2 :=
  ⟨totalRel_getPaging h, totalRel_getContent h⟩

/-- Pointwise relation on fetch results for the totalSize-independence claim. -/
def ExRelTotal (x y : Except ε (JObj α)) : Prop :=
  match x, y with
  | .error e1, .error e2 => e1 = e2
  | .ok r1, .ok r2 => TotalRel r1 r2
  | _, _ => False

theorem exRelTotal_obs {x y : Except ε (JObj α)} (h : ExRelTotal x y) : ExRelObs x y := by
  cases x <;> cases y <;> simp [ExRelTotal, ExRelObs] at h ⊢ <;> try exact h
  exact totalRel_obs h

/-- Envelopes with the same `meta.paging` and exactly one array-valued field
each, holding the same payload list - under arbitrary key names and arbitrary
other non-array fields. -/
def PayloadRel (r1 r2 : JObj α) : Prop :=
  getPaging r1 = getPaging r2 ∧
    ∃ l, (r1.map Prod.snd).filterMap arrOf = [l] ∧
      (r2.map Prod.snd).filterMap arrOf = [l]

theorem payloadRel_obs {r1 r2 : JObj α} (h : PayloadRel r1 r2) : ObsRelR r1 r2 := by
  obtain ⟨hpg, l, h1, h2⟩ := h
  exact ⟨by rw [hpg], by unfold getContent; rw [h1, h2]⟩

/-- Pointwise relation on fetch results for the payload-key-independence claim. -/
def ExRelPayload (x y : Except ε (JObj α)) : Prop :=
  match x, y with
  | .error e1, .error e2 => e1 = e2
  | .ok r1, .ok r2 => PayloadRel r1 r2
  | _, _ => False

theorem exRelPayload_obs {x y : Except ε (JObj α)} (h : ExRelPayload x y) : ExRelObs x y := by
  cases x <;> cases y <;> simp [ExRelPayload, ExRelObs] at h ⊢ <;> try exact h
  exact payloadRel_obs h

/-- Extraction of the payload from an envelope with exactly one array-valued
field: the array is found whatever its key is named and wherever it sits among
the non-array fields. -/
theorem getContent_single_array (pre post : JObj α) (k : String) (l : List α)
    (hpre : ∀ p ∈ pre, arrOf p.2 = none) (hpost : ∀ p ∈ post, arrOf p.2 = none) :
    getContent (pre ++ (k, .arrV l) :: post) = some l := by
  unfold getContent
  rw [List.map_append, List.filterMap_append]
  have h1 : (pre.map Prod.snd).filterMap arrOf = [] := by
    rw [List.filterMap_eq_nil_iff]
    intro a ha
    obtain ⟨p, hp, rfl⟩ := List.mem_map.mp ha
    exact hpre p hp
  rw [h1, List.map_cons, List.filterMap_cons]
  simp [arrOf]

/-! ### Shape of the issued requests, fetch-count bounds -/

theorem phLoop_req_shape (apiCall : JObj α → Except ε (JObj α)) (params : JObj α)
    (pageSize maxPages : Int) :
    ∀ (fuel : Nat) (st : PHState α) (req : JObj α),
      req ∈ (phLoop apiCall params pageSize maxPages fuel st).1 →
      ∃ o, req = buildRequest params pageSize o := by
  intro fuel
  induction fuel with
  | zero => intro st req h; rw [phLoop_zero] at h; simp at h
  | succ n ih =>
    intro st req h
    cases hA : apiCall (buildRequest params pageSize st.offset) with
    | error e =>
      rw [phLoop_succ_err apiCall params pageSize maxPages n st e hA] at h
      exact ⟨st.offset, by simpa using h⟩
    | ok resp =>
      cases hP : getPaging resp with
      | none =>
        rw [phLoop_succ_noPaging apiCall params pageSize maxPages n st resp hA hP] at h
        exact ⟨st.offset, by simpa using h⟩
      | some pg =>
        by_cases hc : pg.currentPageSize > 0 ∧
            (maxPages = -1 ∨ ((st.currentPage + 1 : Nat) : Int) < maxPages)
        · rw [phLoop_succ_cont apiCall params pageSize maxPages n st resp pg hA hP hc] at h
          rcases List.mem_cons.mp h with h | h
          · exact ⟨st.offset, h⟩
          · exact ih _ req h
        · rw [phLoop_succ_stop apiCall params pageSize maxPages n st resp pg hA hP hc] at h
          exact ⟨st.offset, by simpa using h⟩

theorem phLoop_length_bound (apiCall : JObj α → Except ε (JObj α)) (params : JObj α)
    (pageSize maxPages : Int) (hm : 0 < maxPages) :
    ∀ (fuel : Nat) (st : PHState α), (st.currentPage : Int) < maxPages →
      ((phLoop apiCall params pageSize maxPages fuel st).1.length : Int) ≤
        maxPages - st.currentPage := by
  intro fuel
  induction fuel with
  | zero => intro st h; rw [phLoop_zero]; simp; omega
  | succ n ih =>
    intro st h
    cases hA : apiCall (buildRequest params pageSize st.offset) with
    | error e =>
      rw [phLoop_succ_err apiCall params pageSize maxPages n st e hA]; simp; omega
    | ok resp =>
      cases hP : getPaging resp with
      | none =>
        rw [phLoop_succ_noPaging apiCall params pageSize maxPages n st resp hA hP]
        simp; omega
      | some pg =>
        by_cases hc : pg.currentPageSize > 0 ∧
            (maxPages = -1 ∨ ((st.currentPage + 1 : Nat) : Int) < maxPages)
        · rw [phLoop_succ_cont apiCall params pageSize maxPages n st resp pg hA hP hc]
          have hlt : ((nextState st pg pageSize (getContent resp)).currentPage : Int) <
              maxPages := by
            rw [nextState_currentPage]
            rcases hc.2 with h' | h'
            · omega
            · exact h'
          have hb := ih (nextState st pg pageSize (getContent resp)) hlt
          rw [nextState_currentPage] at hb
          simp only [List.length_cons]
          push_cast at hb ⊢
          omega
        · rw [phLoop_succ_stop apiCall params pageSize maxPages n st resp pg hA hP hc]
          simp; omega

theorem phLoop_single_fetch (apiCall : JObj α → Except ε (JObj α)) (params : JObj α)
    (pageSize maxPages : Int) (hm0 : maxPages ≤ 0) (hm1 : maxPages ≠ -1)
    (fuel : Nat) (st : PHState α) :
    (phLoop apiCall params pageSize maxPages (fuel + 1) st).1.length = 1 := by
  cases hA : apiCall (buildRequest params pageSize st.offset) with
  | error e =>
    rw [phLoop_succ_err apiCall params pageSize maxPages fuel st e hA]; rfl
  | ok resp =>
    cases hP : getPaging resp with
    | none =>
      rw [phLoop_succ_noPaging apiCall params pageSize maxPages fuel st resp hA hP]; rfl
    | some pg =>
      have hc : ¬(pg.currentPageSize > 0 ∧
          (maxPages = -1 ∨ ((st.currentPage + 1 : Nat) : Int) < maxPages)) := by
        rintro ⟨-, h2 | h2⟩
        · exact hm1 h2
        · have : (0 : Int) ≤ (st.currentPage : Int) := Int.natCast_nonneg _
          push_cast at h2
          omega
      rw [phLoop_succ_stop apiCall params pageSize maxPages fuel st resp pg hA hP hc]; rfl

/-! ### Claim theorems -/

instance {ε α : Type} [DecidableEq ε] [DecidableEq α] : DecidableEq (Except ε α) := fun x y =>
  match x, y with
  | .error e1, .error e2 => decidable_of_iff (e1 = e2) (by simp)
  | .error _, .ok _ => isFalse (by simp)
  | .ok _, .error _ => isFalse (by simp)
  | .ok a1, .ok a2 => decidable_of_iff (a1 = a2) (by simp)

theorem flatten_filter_not_isEmpty (l : List (List β)) :
    (l.filter (fun x => !x.isEmpty)).flatten = l.flatten := by
  induction l with
  | nil => rfl
  | cons x xs ih =>
    cases x with
    | nil => simpa using ih
    | cons y ys => simp [List.filter_cons, ih]

/-- C1: over well-formed page envelopes served in fetch order - every envelope
carrying `meta.paging` and an array payload, each page before the last reporting
a positive `currentPageSize` and the last a non-positive one - the aggregation
with `maxPages = -1` resolves to the concatenation of the pages' payload arrays
in fetch order (intra-page order preserved) and performs exactly one fetch per
page.  The witness instantiates the spec's concrete scenario: `pageSize = 2`,
envelopes of sizes 2, 2, 1, 0 with payloads `[1,2]`, `[3,4]`, `[5]`, `[]`,
giving exactly 4 fetches and result `[1,2,3,4,5]`. -/
theorem pagination_aggregates_in_order (apiCall : JObj α → Except ε (JObj α))
    (params : JObj α) (pageSize : Int) (resps : List (JObj α)) (fuel : Nat)
    (hne : resps ≠ []) (hfuel : resps.length ≤ fuel)
    (hserve : ∀ i, i < resps.length →
      apiCall (buildRequest params pageSize (sumSizes (resps.take i))) =
        .ok (resps.getD i []))
    (hpag : ∀ r ∈ resps, (getPaging r).isSome)
    (hcon : ∀ r ∈ resps, (getContent r).isSome)
    (hpos : ∀ i, i + 1 < resps.length → 0 < respSize (resps.getD i []))
    (hlast : respSize (resps.getD (resps.length - 1) []) ≤ 0) :
    paginationHandler apiCall params pageSize (-1) fuel =
        some (.resolved ((resps.map respItems).flatten.map some)) ∧
      (phTrace apiCall params pageSize (-1) fuel).length = resps.length := by
  have hserve' : ∀ i, i < resps.length →
      apiCall (buildRequest params pageSize
        ((initState α).offset + sumSizes (resps.take i))) = .ok (resps.getD i []) := by
    intro i hi
    simpa [initState] using hserve i hi
  have h := phLoop_serves apiCall params pageSize resps fuel (initState α)
    hne hfuel hserve' hpag hcon hpos hlast
  constructor
  · unfold paginationHandler phRun
    rw [h]
    simp [initState]
  · unfold phTrace phRun
    rw [h]
    simp

def c1Resps : List (JObj Int) :=
  [scenarioResp 2 5 [1, 2], scenarioResp 2 5 [3, 4], scenarioResp 1 5 [5],
    scenarioResp 0 5 []]

theorem pagination_aggregates_in_order_witness :
    paginationHandler scenarioCall [] 2 (-1) 4 =
        some (.resolved [some 1, some 2, some 3, some 4, some 5]) ∧
      (phTrace scenarioCall [] 2 (-1) 4).length = 4 :=
  pagination_aggregates_in_order scenarioCall [] 2 c1Resps 4
    (by decide) (by decide) (by decide) (by decide) (by decide)
    (by intro i hi; have h3 : i < 3 := by simp [c1Resps] at hi; omega
        interval_cases i <;> decide)
    (by decide)

/-- C2 (evaluating the code at the failing input): when the fetch capability
rejects, the promise returned by `paginationHandler` neither resolves nor
rejects.  The `reject` callback of the executor is never invoked, and the
exception of the `async` executor function is swallowed, so the promise stays
forever pending instead of propagating the underlying error to the caller. -/
theorem pagination_fetch_failure_leaves_promise_pending :
    paginationHandler (fun _ => (.error "network failure" : Except String (JObj Int)))
      [] 1000 (-1) 5 = some .pending := by rfl

/-- An envelope with valid `meta.paging` but no array-valued payload field. -/
def noArrayResp : JObj Int := [("meta", .pagingObj (some ⟨0, 0, 0⟩)), ("status", .prim)]

/-- An envelope missing `meta.paging` entirely. -/
def missingPagingResp : JObj Int := [("status", .prim), ("files", .arrV [1])]

/-- An envelope reporting `currentPageSize = 2` with an empty payload array. -/
def sizeMismatchResp : JObj Int :=
  [("meta", .pagingObj (some ⟨2, 0, 4⟩)), ("items", .arrV ([] : List Int))]

/-- C3 (counterexample): an envelope with no array-valued payload field does not
make the aggregation fail with any distinct fault: the promise resolves
silently, with JavaScript `undefined` (modelled as `none`) appended to the
result - contradicting "not a silent empty or partial result". -/
theorem pagination_malformed_no_protocol_error :
    paginationHandler (fun _ => (.ok noArrayResp : Except String (JObj Int)))
      [] 1000 (-1) 1 = some (.resolved [none]) := by rfl

theorem sizeMismatch_never_ends : ∀ (fuel : Nat) (st : PHState Int),
    (phLoop (fun _ => (.ok sizeMismatchResp : Except String (JObj Int)))
      [] 1000 (-1) fuel st).2 = none := by
  intro fuel
  induction fuel with
  | zero => intro st; rw [phLoop_zero]
  | succ n ih =>
    intro st
    have hA : (fun _ => (.ok sizeMismatchResp : Except String (JObj Int)))
        (buildRequest ([] : JObj Int) 1000 st.offset) = .ok sizeMismatchResp := rfl
    have hP : getPaging sizeMismatchResp = some ⟨2, 0, 4⟩ := rfl
    have hc : (⟨2, 0, 4⟩ : Paging).currentPageSize > 0 ∧
        ((-1 : Int) = -1 ∨ ((st.currentPage + 1 : Nat) : Int) < -1) :=
      ⟨by decide, Or.inl rfl⟩
    rw [phLoop_succ_cont _ ([] : JObj Int) 1000 (-1) n st sizeMismatchResp ⟨2, 0, 4⟩ hA hP hc]
    exact ih _

/-- C3 (amended): what the code actually does on each malformed envelope.  A
page missing `meta.paging` throws a `TypeError` that the async executor
swallows, leaving the promise forever pending (not a distinct protocol fault);
a page with no array-valued field is not detected at all - the promise resolves
silently with `undefined` appended to the items; a page reporting
`currentPageSize > 0` with an empty payload is likewise not detected - the loop
keeps fetching and never settles at any fuel. -/
theorem pagination_malformed_actual_behavior :
    paginationHandler (fun _ => (.ok missingPagingResp : Except String (JObj Int)))
        [] 1000 (-1) 3 = some .pending ∧
      paginationHandler (fun _ => (.ok noArrayResp : Except String (JObj Int)))
        [] 1000 (-1) 1 = some (.resolved [none]) ∧
      ∀ fuel : Nat,
        paginationHandler (fun _ => (.ok sizeMismatchResp : Except String (JObj Int)))
          [] 1000 (-1) fuel = none := by
  refine ⟨rfl, rfl, ?_⟩
  intro fuel
  unfold paginationHandler phRun
  rw [sizeMismatch_never_ends fuel (initState Int)]

/-- C4: when every page but the last reports `currentPageSize = pageSize > 0`
and the last reports `0`, the aggregation (with default `maxPages = -1`)
terminates - fuel equal to the number of pages suffices - after exactly one
fetch per page, and resolves with the concatenation of the non-empty pages'
payloads, in order. -/
theorem pagination_terminates_on_zero_page (apiCall : JObj α → Except ε (JObj α))
    (params : JObj α) (pageSize : Int) (resps : List (JObj α)) (fuel : Nat)
    (hne : resps ≠ []) (hps : 0 < pageSize) (hfuel : resps.length ≤ fuel)
    (hserve : ∀ i, i < resps.length →
      apiCall (buildRequest params pageSize (sumSizes (resps.take i))) =
        .ok (resps.getD i []))
    (hpag : ∀ r ∈ resps, (getPaging r).isSome)
    (hcon : ∀ r ∈ resps, (getContent r).isSome)
    (hfull : ∀ i, i + 1 < resps.length → respSize (resps.getD i []) = pageSize)
    (hlast : respSize (resps.getD (resps.length - 1) []) = 0) :
    paginationHandler apiCall params pageSize (-1) fuel =
        some (.resolved
          (((resps.map respItems).filter (fun l => !l.isEmpty)).flatten.map some)) ∧
      (phTrace apiCall params pageSize (-1) fuel).length = resps.length := by
  have hpos : ∀ i, i + 1 < resps.length → 0 < respSize (resps.getD i []) := by
    intro i hi
    rw [hfull i hi]
    exact hps
  have hserve' : ∀ i, i < resps.length →
      apiCall (buildRequest params pageSize
        ((initState α).offset + sumSizes (resps.take i))) = .ok (resps.getD i []) := by
    intro i hi
    simpa [initState] using hserve i hi
  have h := phLoop_serves apiCall params pageSize resps fuel (initState α)
    hne hfuel hserve' hpag hcon hpos (by rw [hlast])
  rw [flatten_filter_not_isEmpty]
  constructor
  · unfold paginationHandler phRun
    rw [h]
    simp [initState]
  · unfold phTrace phRun
    rw [h]
    simp

def c4Call : JObj Int → Except String (JObj Int) := fun req =>
  match lookupField req "offset" with
  | some (.num 0) => .ok (scenarioResp 2 4 [10, 20])
  | some (.num 2) => .ok (scenarioResp 2 4 [30, 40])
  | some (.num 4) => .ok (scenarioResp 0 4 [])
  | _ => .error "unexpected request"

def c4Resps : List (JObj Int) :=
  [scenarioResp 2 4 [10, 20], scenarioResp 2 4 [30, 40], scenarioResp 0 4 []]

theorem pagination_terminates_on_zero_page_witness :
    paginationHandler c4Call [] 2 (-1) 3 =
        some (.resolved [some 10, some 20, some 30, some 40]) ∧
      (phTrace c4Call [] 2 (-1) 3).length = 3 :=
  pagination_terminates_on_zero_page c4Call [] 2 c4Resps 3
    (by decide) (by decide) (by decide) (by decide) (by decide) (by decide)
    (by intro i hi; have h2 : i < 2 := by simp [c4Resps] at hi; omega
        interval_cases i <;> decide)
    (by decide)

/-- C5: for `maxPages = k > 0`, at most `k` fetches are issued, whatever the
fetch capability returns and however much data remains. -/
theorem pagination_maxPages_bounds_fetches (apiCall : JObj α → Except ε (JObj α))
    (params : JObj α) (pageSize k : Int) (hk : 0 < k) (fuel : Nat) :
    ((phTrace apiCall params pageSize k fuel).length : Int) ≤ k := by
  have h := phLoop_length_bound apiCall params pageSize k hk fuel (initState α)
    (by simpa [initState] using hk)
  simpa [phTrace, phRun, initState] using h

theorem pagination_maxPages_bounds_fetches_witness :
    (0 : Int) < 2 ∧ ((phTrace scenarioCall [] 2 2 10).length : Int) ≤ 2 :=
  ⟨by decide, pagination_maxPages_bounds_fetches scenarioCall [] 2 2 (by decide) 10⟩

/-- C6: for `maxPages = 0`, and for every non-positive `maxPages` other than
`-1`, exactly one fetch is issued - the do-while body always runs once -
whatever the first envelope reports (success, rejection or malformed). -/
theorem pagination_single_fetch_min (apiCall : JObj α → Except ε (JObj α))
    (params : JObj α) (pageSize maxPages : Int) (hm0 : maxPages ≤ 0)
    (hm1 : maxPages ≠ -1) (fuel : Nat) (hf : 1 ≤ fuel) :
    (phTrace apiCall params pageSize maxPages fuel).length = 1 := by
  obtain ⟨n, rfl⟩ : ∃ n, fuel = n + 1 := ⟨fuel - 1, by omega⟩
  exact phLoop_single_fetch apiCall params pageSize maxPages hm0 hm1 n (initState α)

theorem pagination_single_fetch_min_witness :
    (0 : Int) ≤ 0 ∧ (0 : Int) ≠ -1 ∧ (phTrace scenarioCall [] 2 0 5).length = 1 :=
  ⟨by decide, by decide,
    pagination_single_fetch_min scenarioCall [] 2 0 (by decide) (by decide) 5 (by decide)⟩

/-- C7: the request of fetch `i+1` carries `offset` equal to the sum of the
`currentPageSize` values reported by the envelopes of fetches `1..i`; the
instance `i = 0` is the first fetch, issued with `offset = 0`. -/
theorem pagination_offset_invariant (apiCall : JObj α → Except ε (JObj α))
    (params : JObj α) (pageSize : Int) (resps : List (JObj α)) (fuel : Nat)
    (hne : resps ≠ []) (hfuel : resps.length ≤ fuel)
    (hserve : ∀ i, i < resps.length →
      apiCall (buildRequest params pageSize (sumSizes (resps.take i))) =
        .ok (resps.getD i []))
    (hpag : ∀ r ∈ resps, (getPaging r).isSome)
    (hcon : ∀ r ∈ resps, (getContent r).isSome)
    (hpos : ∀ i, i + 1 < resps.length → 0 < respSize (resps.getD i []))
    (hlast : respSize (resps.getD (resps.length - 1) []) ≤ 0) :
    ∀ i, i < resps.length →
      lookupField ((phTrace apiCall params pageSize (-1) fuel).getD i []) "offset" =
        some (.num (sumSizes (resps.take i))) := by
  have hserve' : ∀ i, i < resps.length →
      apiCall (buildRequest params pageSize
        ((initState α).offset + sumSizes (resps.take i))) = .ok (resps.getD i []) := by
    intro i hi
    simpa [initState] using hserve i hi
  have h := phLoop_serves apiCall params pageSize resps fuel (initState α)
    hne hfuel hserve' hpag hcon hpos hlast
  intro i hi
  unfold phTrace phRun
  rw [h]
  rw [List.getD_eq_getElem?_getD, List.getElem?_map, List.getElem?_range hi]
  simp [lookupField_buildRequest, initState]

theorem pagination_offset_invariant_witness :
    lookupField ((phTrace scenarioCall [] 2 (-1) 4).getD 0 []) "offset" =
        some (.num 0) ∧
      lookupField ((phTrace scenarioCall [] 2 (-1) 4).getD 2 []) "offset" =
        some (.num 4) := by
  have h := pagination_offset_invariant scenarioCall [] 2 c1Resps 4
    (by decide) (by decide) (by decide) (by decide) (by decide)
    (by intro i hi; have h3 : i < 3 := by simp [c1Resps] at hi; omega
        interval_cases i <;> decide)
    (by decide)
  exact ⟨h 0 (by decide), h 2 (by decide)⟩

/-- C8: payload-key independence.  The payload is extracted from the single
array-valued top-level field whatever its key is named, with non-array fields
(such as `meta` and `status`) ignored; and two fetch capabilities that serve the
same `meta.paging` and the same single payload array under different key names
and different non-array fields drive the aggregation through the same requests
to the same outcome. -/
theorem pagination_payload_key_independent (a1 a2 : JObj α → Except ε (JObj α))
    (params : JObj α) (pageSize maxPages : Int) (fuel : Nat)
    (h : ∀ req, ExRelPayload (a1 req) (a2 req)) :
    (phTrace a1 params pageSize maxPages fuel = phTrace a2 params pageSize maxPages fuel ∧
        paginationHandler a1 params pageSize maxPages fuel =
          paginationHandler a2 params pageSize maxPages fuel) ∧
      ∀ (pre post : JObj α) (k : String) (l : List α),
        (∀ p ∈ pre, arrOf p.2 = none) → (∀ p ∈ post, arrOf p.2 = none) →
          getContent (pre ++ (k, .arrV l) :: post) = some l := by
  have hrun := phLoop_obs a1 a2 params pageSize maxPages
    (fun req => exRelPayload_obs (h req)) fuel (initState α) (initState α)
    ⟨rfl, rfl, rfl, rfl⟩
  refine ⟨⟨?_, ?_⟩, fun pre post k l h1 h2 => getContent_single_array pre post k l h1 h2⟩
  · unfold phTrace phRun
    rw [hrun]
  · unfold paginationHandler phRun
    rw [hrun]

def c8RespA : JObj Int := [("meta", .pagingObj (some ⟨0, 0, 2⟩)), ("files", .arrV [7, 8])]

def c8RespB : JObj Int :=
  [("status", .prim), ("meta", .pagingObj (some ⟨0, 0, 2⟩)), ("tasks", .arrV [7, 8])]

theorem pagination_payload_key_independent_witness :
    (phTrace (fun _ => (.ok c8RespA : Except String (JObj Int))) [] 1000 (-1) 2 =
          phTrace (fun _ => (.ok c8RespB : Except String (JObj Int))) [] 1000 (-1) 2 ∧
        paginationHandler (fun _ => (.ok c8RespA : Except String (JObj Int)))
            [] 1000 (-1) 2 =
          paginationHandler (fun _ => (.ok c8RespB : Except String (JObj Int))) [] 1000 (-1) 2) ∧
      getContent (([("meta", .pagingObj (some ⟨0, 0, 2⟩))] : JObj Int) ++
        ("files", .arrV [7, 8]) :: [("status", .prim)]) = some [7, 8] := by
  have h := pagination_payload_key_independent
    (fun _ => (.ok c8RespA : Except String (JObj Int))) (fun _ => (.ok c8RespB : Except String (JObj Int)))
    [] 1000 (-1) 2 (fun req => ⟨rfl, [7, 8], rfl, rfl⟩)
  exact ⟨h.1, h.2 [("meta", .pagingObj (some ⟨0, 0, 2⟩))] [("status", .prim)]
    "files" [7, 8] (by decide) (by decide)⟩

/-- C9: totalSize independence.  Two fetch capabilities whose answers are
identical except for every `meta.paging.totalSize` value drive the aggregation
through identical request traces (hence the same number of fetches) to the same
outcome: `totalSize` is read once into a variable that is never used again. -/
theorem pagination_totalSize_independent (a1 a2 : JObj α → Except ε (JObj α))
    (params : JObj α) (pageSize maxPages : Int) (fuel : Nat)
    (h : ∀ req, ExRelTotal (a1 req) (a2 req)) :
    phTrace a1 params pageSize maxPages fuel = phTrace a2 params pageSize maxPages fuel ∧
      paginationHandler a1 params pageSize maxPages fuel =
        paginationHandler a2 params pageSize maxPages fuel := by
  have hrun := phLoop_obs a1 a2 params pageSize maxPages
    (fun req => exRelTotal_obs (h req)) fuel (initState α) (initState α)
    ⟨rfl, rfl, rfl, rfl⟩
  constructor
  · unfold phTrace phRun
    rw [hrun]
  · unfold paginationHandler phRun
    rw [hrun]

def c9RespA : JObj Int := [("meta", .pagingObj (some ⟨0, 0, 5⟩)), ("items", .arrV [1])]

def c9RespB : JObj Int := [("meta", .pagingObj (some ⟨0, 0, 999⟩)), ("items", .arrV [1])]

theorem pagination_totalSize_independent_witness :
    phTrace (fun _ => (.ok c9RespA : Except String (JObj Int))) [] 1000 (-1) 2 =
        phTrace (fun _ => (.ok c9RespB : Except String (JObj Int))) [] 1000 (-1) 2 ∧
      paginationHandler (fun _ => (.ok c9RespA : Except String (JObj Int)))
          [] 1000 (-1) 2 =
        paginationHandler (fun _ => (.ok c9RespB : Except String (JObj Int))) [] 1000 (-1) 2 :=
  pagination_totalSize_independent
    (fun _ => (.ok c9RespA : Except String (JObj Int))) (fun _ => (.ok c9RespB : Except String (JObj Int)))
    [] 1000 (-1) 2
    (fun req =>
      List.Forall₂.cons ⟨rfl, TotalVRel.pagingSome _ _ rfl rfl⟩
        (List.Forall₂.cons ⟨rfl, TotalVRel.arrV _⟩ List.Forall₂.nil))

/-- C10: every argument object the loop passes to the fetch capability is the
caller's `params` extended with `limit = pageSize` and `offset = o` for the
iteration's offset `o`, built fresh by `{...params, limit, offset}` - the
injected `limit` and `offset` override identically named caller keys, and every
other key reads through to `params` unchanged (the pure model never mutates
`params`; the source builds a new object by spread and never writes into it). -/
theorem pagination_request_construction (apiCall : JObj α → Except ε (JObj α))
    (params : JObj α) (pageSize maxPages : Int) (fuel : Nat) :
    (∀ req ∈ phTrace apiCall params pageSize maxPages fuel,
        ∃ o, req = buildRequest params pageSize o) ∧
      ∀ (o : Int) (k : String),
        lookupField (buildRequest params pageSize o) k =
          if k = "limit" then some (.num pageSize)
          else if k = "offset" then some (.num o)
          else lookupField params k := by
  constructor
  · exact fun req hreq =>
      phLoop_req_shape apiCall params pageSize maxPages fuel (initState α) req hreq
  · exact fun o k => lookupField_buildRequest params pageSize o k

def c10Params : JObj Int := [("limit", .num 99), ("q", .prim)]

def c10Call : JObj Int → Except String (JObj Int) := fun _ => .ok (scenarioResp 0 0 [])

theorem pagination_request_construction_witness :
    (buildRequest c10Params 1000 0 ∈ phTrace c10Call c10Params 1000 (-1) 1) ∧
      (∃ o, buildRequest c10Params 1000 0 = buildRequest c10Params 1000 o) ∧
      lookupField (buildRequest c10Params 1000 0) "limit" = some (.num 1000) ∧
      lookupField (buildRequest c10Params 1000 0) "offset" = some (.num 0) ∧
      lookupField (buildRequest c10Params 1000 0) "q" = lookupField c10Params "q" := by
  have h := pagination_request_construction c10Call c10Params 1000 (-1) 1
  refine ⟨by decide, h.1 _ (by decide), ?_, ?_, ?_⟩
  · have h2 := h.2 0 "limit"
    simpa using h2
  · have h2 := h.2 0 "offset"
    simpa using h2
  · have h2 := h.2 0 "q"
    simpa using h2
